import Mathlib

/-!
Verification of the star-sdk leaderboard and audio core.

This file embeds the behaviour of `packages/star-leaderboard/src/platform.ts`
(`createPlatformBridge`), `packages/star-leaderboard/src/impl.ts`
(`createLeaderboardImpl`), the direct API client (`api.ts`, `createApiClient`),
`packages/star-audio/src/internals/ProceduralSynth.ts` and the Howler-backed
audio session manager (`StarAudioImpl`) as executable Lean definitions, and
proves properties of the spec against them.
-/

namespace StarSDK

/-- The `SubmitResult` shape shared by the platform bridge, API client and
facade (`{success, rank?, scoreId?, error?}`). -/
structure SubmitResult where
  success : Bool
  rank : Option Nat
  scoreId : Option String
  error : Option String
deriving DecidableEq, Repr

namespace Bridge

/-- The inbound `submit_result` payload: every field may be absent
(`payload?.success`, `payload?.rank`, ...). -/
structure ResultPayload where
  success : Option Bool
  rank : Option Nat
  scoreId : Option String
  error : Option String
deriving DecidableEq, Repr

/-- `handleMessage` builds the resolved value as
`success: payload?.success ?? false, rank: payload?.rank, ...`. -/
def ResultPayload.toResult (p : ResultPayload) : SubmitResult :=
  { success := p.success.getD false
    rank := p.rank
    scoreId := p.scoreId
    error := p.error }

def SDK_SOURCE : String := "star_leaderboard_sdk"

def PARENT_SOURCE : String := "star_leaderboard_parent"

def RUNTIME_SOURCE : String := "star_game_runtime"

/-- The synthetic result produced when the 10 s timer fires. -/
def timeoutResult : SubmitResult :=
  { success := false, rank := none, scoreId := none
    error := some "Timeout waiting for response" }

/-- The synthetic result `destroy()` delivers to every still-pending submit. -/
def destroyedResult : SubmitResult :=
  { success := false, rank := none, scoreId := none
    error := some "SDK destroyed" }

/-- State of one `createPlatformBridge()` instance.  `pending` holds the keys
of the `pendingSubmits` map, `resolved` is the chronological log of promise
resolutions `(correlation id, result)`, and `destroyed` records that the
message listener has been removed. -/
structure BridgeState where
  gameId : Option String
  ready : Bool
  submitId : Nat
  pending : List Nat
  resolved : List (Nat × SubmitResult)
  destroyed : Bool
deriving DecidableEq, Repr

/-- State right after `createPlatformBridge()` returns. -/
def initState : BridgeState :=
  { gameId := none, ready := false, submitId := 0
    pending := [], resolved := [], destroyed := false }

/-- The events a bridge instance reacts to: a `submit(score)` call, an inbound
window message (`context` or `submit_result`, with its source tag), a pending
entry's 10 s timer firing, and `destroy()`. -/
inductive Event where
  | submit (score : Int)
  | recvContext (src : String) (gid : Option String)
  | recvSubmitResult (src : String) (id : Option Nat) (p : ResultPayload)
  | timeout (id : Nat)
  | destroy
deriving DecidableEq, Repr

/-- `submit`: `const id = ++submitId; pendingSubmits.set(id, ...)`. -/
def applySubmit (s : BridgeState) : BridgeState :=
  { s with submitId := s.submitId + 1, pending := (s.submitId + 1) :: s.pending }

/-- `case 'context'`: only a message from the parent source carrying a truthy
`gameId` sets `gameId` and `ready`; after `destroy()` the listener is gone. -/
def applyContext (s : BridgeState) (src : String) (g : Option String) : BridgeState :=
  if s.destroyed then s
  else if src = PARENT_SOURCE then
    match g with
    | some gid => if gid ≠ "" then { s with gameId := some gid, ready := true } else s
    | none => s
  else s

/-- Move `id` out of the pending map and append its promise resolution. -/
def resolvePending (s : BridgeState) (id : Nat) (r : SubmitResult) : BridgeState :=
  { s with pending := s.pending.erase id, resolved := s.resolved ++ [(id, r)] }

/-- `case 'submit_result'`: look the payload id up in `pendingSubmits`; on a
match clear the timeout, delete the entry and resolve; otherwise do nothing. -/
def applyResult (s : BridgeState) (src : String) (oid : Option Nat)
    (p : ResultPayload) : BridgeState :=
  if s.destroyed then s
  else if src = PARENT_SOURCE then
    match oid with
    | some id => if id ∈ s.pending then resolvePending s id p.toResult else s
    | none => s
  else s

/-- The `setTimeout` callback: `if (pendingSubmits.has(id))` delete and resolve
with the timeout failure, else no-op. -/
def applyTimeout (s : BridgeState) (id : Nat) : BridgeState :=
  if id ∈ s.pending then resolvePending s id timeoutResult else s

/-- `destroy()`: remove the listener, resolve every pending entry with the
destroyed failure, clear the map. -/
def applyDestroy (s : BridgeState) : BridgeState :=
  { s with destroyed := true
           pending := []
           resolved := s.resolved ++ s.pending.map (fun id => (id, destroyedResult)) }

/-- One event-loop step of the bridge. -/
def step (s : BridgeState) : Event → BridgeState
  | .submit _ => applySubmit s
  | .recvContext src g => applyContext s src g
  | .recvSubmitResult src oid p => applyResult s src oid p
  | .timeout id => applyTimeout s id
  | .destroy => applyDestroy s

/-- Run a bridge instance from construction through a list of events. -/
def run (es : List Event) : BridgeState :=
  es.foldl step initState

/-- The correlation ids that have been resolved so far, in resolution order. -/
def resolvedIds (s : BridgeState) : List Nat :=
  s.resolved.map Prod.fst

/-- `true` for exactly the inbound messages that flip `ready` / set `gameId`:
a parent-sourced `context` with a truthy `gameId`. -/
def isContextEvent : Event → Bool
  | .recvContext src (some g) => src = PARENT_SOURCE && g ≠ ""
  | _ => false

/-- Reachability invariant of the bridge: pending ids are distinct, resolved
ids are distinct, no id is both pending and resolved, and the pending and
resolved ids are exactly the assigned correlation ids `1..submitId`. -/
structure Inv (s : BridgeState) : Prop where
  pending_nodup : s.pending.Nodup
  resolved_nodup : (resolvedIds s).Nodup
  disj : ∀ i ∈ s.pending, i ∉ resolvedIds s
  assigned : ∀ i, (i ∈ s.pending ∨ i ∈ resolvedIds s) ↔ (1 ≤ i ∧ i ≤ s.submitId)

end Bridge

namespace Facade

/-- What a submit-observer does when invoked (`handler(result)` may throw). -/
inductive HandlerOutcome where
  | ok
  | threw (msg : String)
deriving DecidableEq, Repr

/-- The `for (const handler of submitHandlers) try ... catch ...` loop of
`impl.ts submit`.  Returns the invoked handler ids in iteration order and the
messages logged by the `catch` arms; a throwing handler is caught and the loop
continues with the next handler. -/
def runHandlers (behavior : Nat → SubmitResult → HandlerOutcome)
    (hs : List Nat) (r : SubmitResult) : List Nat × List String :=
  match hs with
  | [] => ([], [])
  | h :: t =>
    let caught : List String :=
      match behavior h r with
      | .ok => []
      | .threw m => ["Submit handler error: " ++ m]
    let rest := runHandlers behavior t r
    (h :: rest.1, caught ++ rest.2)

/-- A JavaScript number as far as `typeof score == number && isFinite(score)`
cares: NaN, the infinities, or a finite value. -/
inductive JSNum where
  | nan
  | posInf
  | negInf
  | fin (q : ℚ)
deriving DecidableEq, Repr

def JSNum.isFinite : JSNum → Bool
  | .fin _ => true
  | _ => false

/-- Mode fixed at construction by `detectPlatformContext()`. -/
inductive Mode where
  | platform
  | standalone
deriving DecidableEq, Repr

/-- Outcome of awaiting the transport delegate (`platformBridge.submit` or
`apiClient.submit`): a result, or a thrown exception caught by the facade. -/
inductive DelegateOutcome where
  | result (r : SubmitResult)
  | thrown (msg : String)
deriving DecidableEq, Repr

/-- The short-circuit result for a non-finite score. -/
def invalidScoreResult : SubmitResult :=
  { success := false, rank := none, scoreId := none
    error := some "Invalid score value" }

/-- The short-circuit result when standalone mode has no gameId. -/
def gameIdRequiredResult : SubmitResult :=
  { success := false, rank := none, scoreId := none
    error := some "gameId is required. Run \"npx star-sdk init\" to register your game." }

/-- `impl.ts submit(score)`: validate the score, delegate per mode (standalone
requires a resolvable gameId), then fan the obtained result out to the
subscribed handlers.  Returns the resolved result together with the list of
handler ids that were invoked, in order. -/
def facadeSubmit (mode : Mode) (gid : Option String) (score : JSNum)
    (delegate : DelegateOutcome) (handlers : List Nat)
    (behavior : Nat → SubmitResult → HandlerOutcome) : SubmitResult × List Nat :=
  if !score.isFinite then (invalidScoreResult, [])
  else
    match mode with
    | .platform =>
      match delegate with
      | .result r => (r, (runHandlers behavior handlers r).1)
      | .thrown m =>
        ({ success := false, rank := none, scoreId := none, error := some m }, [])
    | .standalone =>
      match gid with
      | none => (gameIdRequiredResult, [])
      | some _ =>
        match delegate with
        | .result r => (r, (runHandlers behavior handlers r).1)
        | .thrown m =>
          ({ success := false, rank := none, scoreId := none, error := some m }, [])

/-- A concrete successful result for examples. -/
def okSubmitResult : SubmitResult :=
  { success := true, rank := some 4, scoreId := some "abc", error := none }

/-- `submitHandlers.add(fn)` on a JS `Set`: inserts at the end unless already
present (the handler list is kept in insertion order and duplicate-free). -/
def setAdd (hs : List Nat) (f : Nat) : List Nat :=
  if f ∈ hs then hs else hs ++ [f]

/-- The unsubscribe closure `() => submitHandlers.delete(fn)`. -/
def setDelete (hs : List Nat) (f : Nat) : List Nat :=
  hs.erase f

end Facade

namespace Api

inductive Timeframe where
  | weekly
  | all_time
deriving DecidableEq, Repr

/-- A raw score row of the backend's JSON body (`rank` may be absent). -/
structure RawEntry where
  id : String
  playerName : Option String
  score : ℚ
  submittedAt : String
  rank : Option Nat
deriving DecidableEq, Repr

/-- The optional `config` block of the response. -/
structure LbConfig where
  sort : Option String
  valueType : Option String
deriving DecidableEq, Repr

/-- A fully parsed 2xx response body of `GET /api/sdk/leaderboard/:gameId`. -/
structure RawSnapshot where
  scores : List RawEntry
  config : Option LbConfig
  timeframe : Timeframe
  you : Option RawEntry
  weekResetTime : Option Int
deriving DecidableEq, Repr

/-- The client-side `ScoreEntry` (rank always present after parsing). -/
structure ScoreEntry where
  id : String
  playerName : Option String
  score : ℚ
  rank : Nat
  submittedAt : String
deriving DecidableEq, Repr

/-- The `LeaderboardData` snapshot the client returns. -/
structure LeaderboardData where
  scores : List ScoreEntry
  config : Option LbConfig
  timeframe : Timeframe
  you : Option ScoreEntry
  weekResetTime : Option Int
deriving DecidableEq, Repr

/-- How the `fetch` + `response.json()` round trip can end: network failure,
non-2xx status (with the best-effort `error` field of its body), a 2xx body
that does not parse into the expected shape, or a parsed body. -/
inductive FetchOutcome where
  | networkError (msg : String)
  | httpError (status : Nat) (errField : Option String)
  | badBody
  | ok (body : RawSnapshot)
deriving DecidableEq, Repr

/-- The empty well-formed snapshot returned on any failure:
`scores: [], timeframe: options.timeframe ?? 'weekly', you: null`. -/
def emptyData (reqTimeframe : Option Timeframe) : LeaderboardData :=
  { scores := [], config := none, timeframe := reqTimeframe.getD .weekly
    you := none, weekResetTime := none }

/-- `result.scores.map((s, i) => ({..., rank: s.rank ?? i + 1, ...}))`. -/
def mapEntry (i : Nat) (s : RawEntry) : ScoreEntry :=
  { id := s.id, playerName := s.playerName, score := s.score
    rank := s.rank.getD (i + 1), submittedAt := s.submittedAt }

/-- The `you` mapping: `rank: result.you.rank ?? 0`. -/
def mapYou (y : RawEntry) : ScoreEntry :=
  { id := y.id, playerName := y.playerName, score := y.score
    rank := y.rank.getD 0, submittedAt := y.submittedAt }

/-- `api.ts getScores`: on a parsed body, map entries with rank defaulting;
on any failure (the surrounding `catch`), return the empty snapshot. -/
def getScores (outcome : FetchOutcome) (reqTimeframe : Option Timeframe) :
    LeaderboardData :=
  match outcome with
  | .ok raw =>
    { scores := raw.scores.enum.map (fun p => mapEntry p.1 p.2)
      config := raw.config
      timeframe := raw.timeframe
      you := raw.you.map mapYou
      weekResetTime := raw.weekResetTime }
  | _ => emptyData reqTimeframe

/-- `impl.ts getScores`: without a resolvable gameId, log and return the empty
snapshot instead of calling the API client. -/
def facadeGetScores (gid : Option String) (reqTimeframe : Option Timeframe)
    (outcome : FetchOutcome) : LeaderboardData :=
  match gid with
  | none => emptyData reqTimeframe
  | some _ => getScores outcome reqTimeframe

/-- Example response body whose `you` entry carries no rank field. -/
def rawYouNoRank : RawSnapshot :=
  { scores := [], config := none, timeframe := .weekly
    you := some { id := "y", playerName := some "p", score := 5
                  submittedAt := "t", rank := none }
    weekResetTime := none }

/-- Example body with three rows; only the middle one has an explicit rank. -/
def rawThree : RawSnapshot :=
  { scores :=
      [ { id := "a", playerName := some "A", score := 30, submittedAt := "t1", rank := none }
      , { id := "b", playerName := some "B", score := 20, submittedAt := "t2", rank := some 7 }
      , { id := "c", playerName := none, score := 10, submittedAt := "t3", rank := none } ]
    config := none, timeframe := .weekly, you := none, weekResetTime := none }

end Api

namespace Synth

inductive Waveform where
  | sine
  | square
  | sawtooth
  | triangle
deriving DecidableEq, Repr

def Waveform.name : Waveform → String
  | .sine => "sine"
  | .square => "square"
  | .sawtooth => "sawtooth"
  | .triangle => "triangle"

inductive Envelope where
  | percussive
  | sustained
deriving DecidableEq, Repr

def Envelope.name : Envelope → String
  | .percussive => "percussive"
  | .sustained => "sustained"

/-- `frequency?: number | number[]` — a scalar and a one-element array are
distinct values (and serialize differently). -/
inductive FreqSpec where
  | single (f : ℚ)
  | many (fs : List ℚ)
deriving DecidableEq, Repr

/-- `SynthDefinition` with every field optional, plus the internal `_version`
tag that `resolveDefinition` attaches to resolved presets. -/
structure SynthDefinition where
  waveform : Option Waveform := none
  frequency : Option FreqSpec := none
  duration : Option ℚ := none
  volume : Option ℚ := none
  envelope : Option Envelope := none
  version : Option String := none
deriving DecidableEq, Repr

/-- The closed catalog of 17 preset names. -/
inductive SynthPreset where
  | beep | coin | pickup | jump | hurt | explosion | powerup | shoot | laser
  | error | click | success | bonus | select | unlock | swoosh | hit
deriving DecidableEq, Repr

def SynthPreset.name : SynthPreset → String
  | .beep => "beep"
  | .coin => "coin"
  | .pickup => "pickup"
  | .jump => "jump"
  | .hurt => "hurt"
  | .explosion => "explosion"
  | .powerup => "powerup"
  | .shoot => "shoot"
  | .laser => "laser"
  | .error => "error"
  | .click => "click"
  | .success => "success"
  | .bonus => "bonus"
  | .select => "select"
  | .unlock => "unlock"
  | .swoosh => "swoosh"
  | .hit => "hit"

/-- `PRESET_VERSION` (cache-busting tag appended to resolved presets). -/
def PRESET_VERSION : String := "v34"

/-- `PRESET_DEFINITIONS`: the fixed catalog from `ProceduralSynth.ts`. -/
def presetDefinition : SynthPreset → SynthDefinition
  | .beep =>
    { waveform := some .square, frequency := some (.many [660, 880])
      duration := some 0.1, volume := some 0.38, envelope := some .percussive }
  | .coin =>
    { waveform := some .sine, frequency := some (.many [988, 1318, 1568, 1976])
      duration := some 0.16, volume := some 0.42, envelope := some .percussive }
  | .pickup =>
    { waveform := some .sine, frequency := some (.many [784, 988, 1175, 1397])
      duration := some 0.13, volume := some 0.40, envelope := some .percussive }
  | .jump =>
    { waveform := some .triangle, frequency := some (.many [180, 240, 320, 450])
      duration := some 0.15, volume := some 0.7, envelope := some .percussive }
  | .hurt =>
    { waveform := some .sawtooth, frequency := some (.many [600, 400, 250, 150])
      duration := some 0.25, volume := some 0.28, envelope := some .percussive }
  | .explosion =>
    { waveform := some .sawtooth
      frequency := some (.many [800, 600, 450, 320, 220, 160, 120, 90, 70, 55, 45, 40, 35, 30])
      duration := some 0.65, volume := some 0.45, envelope := some .percussive }
  | .powerup =>
    { waveform := some .triangle
      frequency := some (.many [262, 330, 392, 523, 659, 784, 1046])
      duration := some 0.48, volume := some 0.44, envelope := some .sustained }
  | .shoot =>
    { waveform := some .triangle
      frequency := some (.many [1800, 1400, 900, 600, 380, 220])
      duration := some 0.10, volume := some 0.45, envelope := some .percussive }
  | .laser =>
    { waveform := some .sawtooth
      frequency := some (.many [3200, 2800, 2400, 1800, 1400, 1000, 700, 450, 260, 140])
      duration := some 0.18, volume := some 0.42, envelope := some .percussive }
  | .error =>
    { waveform := some .sawtooth, frequency := some (.many [800, 500, 250, 150])
      duration := some 0.22, volume := some 0.32, envelope := some .percussive }
  | .click =>
    { waveform := some .sine, frequency := some (.single 800)
      duration := some 0.05, volume := some 0.7, envelope := some .percussive }
  | .success =>
    { waveform := some .triangle
      frequency := some (.many [784, 988, 1175, 1046, 1318, 1568, 1976, 2349])
      duration := some 1.2, volume := some 0.48, envelope := some .sustained }
  | .bonus =>
    { waveform := some .sine
      frequency := some (.many [659, 880, 1046, 1318, 1568, 1976])
      duration := some 0.42, volume := some 0.50, envelope := some .sustained }
  | .select =>
    { waveform := some .sine, frequency := some (.many [880, 1046])
      duration := some 0.06, volume := some 0.35, envelope := some .percussive }
  | .unlock =>
    { waveform := some .triangle
      frequency := some (.many [220, 196, 220, 440, 659, 880, 1175])
      duration := some 0.35, volume := some 0.46, envelope := some .sustained }
  | .swoosh =>
    { waveform := some .sine
      frequency := some (.many [350, 600, 900, 1100, 950, 700, 450, 250])
      duration := some 0.15, volume := some 0.36, envelope := some .percussive }
  | .hit =>
    { waveform := some .sawtooth
      frequency := some (.many [450, 400, 350, 300, 250, 200, 280, 340, 420])
      duration := some 0.06, volume := some 0.56, envelope := some .percussive }

/-- The argument of `_loadProceduralSound`: a preset name or a custom
definition object. -/
inductive SynthInput where
  | preset (p : SynthPreset)
  | custom (d : SynthDefinition)
deriving DecidableEq, Repr

/-- `resolveDefinition`: presets get the catalog entry tagged with
`_version: PRESET_VERSION`; a custom definition passes through unchanged. -/
def resolveDefinition : SynthInput → SynthDefinition
  | .preset p => { presetDefinition p with version := some PRESET_VERSION }
  | .custom d => d

def quoteStr (s : String) : String := "\"" ++ s ++ "\""

def serializeQ (q : ℚ) : String := toString q

def serializeFreq : FreqSpec → String
  | .single f => serializeQ f
  | .many fs => "[" ++ String.intercalate "," (fs.map serializeQ) ++ "]"

/-- Deterministic stand-in for `JSON.stringify(definition)`: serialize the
present fields in insertion order, skipping absent ones. -/
def serializeDef (d : SynthDefinition) : String :=
  let parts : List String :=
    (d.waveform.map (fun w => quoteStr "waveform" ++ ":" ++ quoteStr w.name)).toList ++
    (d.frequency.map (fun f => quoteStr "frequency" ++ ":" ++ serializeFreq f)).toList ++
    (d.duration.map (fun q => quoteStr "duration" ++ ":" ++ serializeQ q)).toList ++
    (d.volume.map (fun q => quoteStr "volume" ++ ":" ++ serializeQ q)).toList ++
    (d.envelope.map (fun e => quoteStr "envelope" ++ ":" ++ quoteStr e.name)).toList ++
    (d.version.map (fun v => quoteStr "_version" ++ ":" ++ quoteStr v)).toList
  "\x7b" ++ String.intercalate "," parts ++ "\x7d"

/-- The cache key computed in `_loadProceduralSound`:
preset name prefix + serialized resolved definition for presets,
serialized definition for custom inputs. -/
def defKey : SynthInput → String
  | .preset p => p.name ++ ":" ++ serializeDef (resolveDefinition (.preset p))
  | .custom d => serializeDef (resolveDefinition (.custom d))

/-- The `_generatedWavUrls` cache plus a counter of how many times
`generateWavUrl` has actually rendered. -/
structure ProcCache where
  urls : List (String × String)
  renderCount : Nat
deriving DecidableEq, Repr

/-- Each render mints a fresh object URL. -/
def freshUrl (n : Nat) : String := "blob:" ++ toString n

/-- The caching part of `_loadProceduralSound`: look the key up in
`_generatedWavUrls`; on a miss render once and memoize. -/
def loadProceduralSound (st : ProcCache) (v : SynthInput) : ProcCache × String :=
  match st.urls.lookup (defKey v) with
  | some url => (st, url)
  | none =>
    let url := freshUrl st.renderCount
    ({ urls := (defKey v, url) :: st.urls, renderCount := st.renderCount + 1 }, url)

end Synth

namespace Audio

inductive Group where
  | music
  | sfx
deriving DecidableEq, Repr

/-- JS `Map.set`: overwrite in place, else append. -/
def assocSet {α : Type} (l : List (String × α)) (k : String) (v : α) :
    List (String × α) :=
  match l with
  | [] => [(k, v)]
  | (k', v') :: t => if k' = k then (k, v) :: t else (k', v') :: assocSet t k v

/-- JS `Map.delete`: drop every binding of the key. -/
def assocDelete {α : Type} (l : List (String × α)) (k : String) :
    List (String × α) :=
  l.filter (fun p => p.1 != k)

/-- `_inferGroup`: `music.`/`bgm.` id prefixes go to the music bus. -/
def inferGroup (id : String) : Group :=
  if id.toLower.startsWith "music." || id.toLower.startsWith "bgm." then .music
  else .sfx

/-- The per-instance sound registries of `StarAudioImpl` (`_sounds`,
`_soundGroups`, `_soundVolumes`) plus counters of the emitted `error` events
and console warnings/errors. -/
structure Registry where
  sounds : List String
  soundGroups : List (String × Group)
  soundVolumes : List (String × ℚ)
  errorEvents : Nat
  warnings : Nat
deriving DecidableEq, Repr

def emptyRegistry : Registry :=
  { sounds := [], soundGroups := [], soundVolumes := []
    errorEvents := 0, warnings := 0 }

/-- The shared Howl creation of `load`/`_loadProceduralSound`: assign the
group first, then either insert the sound on `onload`, or on `onloaderror`
emit an `error` event, log, and remove the group entry again — resolving
either way (never throwing). `outcome` is whether the load succeeds. -/
def howlLoad (st : Registry) (id : String) (group : Option Group)
    (outcome : Bool) : Registry :=
  let g := group.getD (inferGroup id)
  let st1 := { st with soundGroups := assocSet st.soundGroups id g }
  if outcome then
    { st1 with sounds := if id ∈ st1.sounds then st1.sounds else st1.sounds ++ [id] }
  else
    { st1 with soundGroups := assocDelete st1.soundGroups id
               errorEvents := st1.errorEvents + 1
               warnings := st1.warnings + 1 }

/-- `load(config)`: warn and do nothing without sources, else run the Howl
load. -/
def loadEntry (st : Registry) (id : String) (sources : Option (List String))
    (group : Option Group) (outcome : Bool) : Registry :=
  match sources with
  | none => { st with warnings := st.warnings + 1 }
  | some _ => howlLoad st id group outcome

/-- One manifest entry as `preload` dispatches on its shape. -/
inductive ManifestValue where
  | presetVal (p : Synth.SynthPreset)
  | synthVal (d : Synth.SynthDefinition)
  | fileSrc (srcs : List String)
  | obj (synth : Option Synth.SynthInput) (src : Option (List String))
        (volume : Option ℚ) (group : Option Group)
deriving Repr

/-- One entry of `preload(manifest)`: procedural values load procedurally;
strings/arrays are checked for a typo'd preset name (no `.`, not `http…`:
log an error and skip) then file-loaded; object entries first record their
per-ID volume override, then load via `synth` or `src`. -/
def preloadEntry (st : Registry) (id : String) (v : ManifestValue)
    (outcome : Bool) : Registry :=
  match v with
  | .presetVal _ => howlLoad st id none outcome
  | .synthVal _ => howlLoad st id none outcome
  | .fileSrc srcs =>
    match srcs.head? with
    | some s =>
      if ¬ s.contains '.' ∧ ¬ s.startsWith "http" then
        { st with warnings := st.warnings + 1 }
      else howlLoad st id none outcome
    | none => howlLoad st id none outcome
  | .obj synth src volume group =>
    let st1 :=
      match volume with
      | some vol => { st with soundVolumes := assocSet st.soundVolumes id vol }
      | none => st
    match synth with
    | some _ => howlLoad st1 id group outcome
    | none => loadEntry st1 id src group outcome

/-- The minimum safe loop duration: `audioDuration > 0.1` guards looping. -/
def MIN_SAFE_LOOP : ℚ := 0.1

/-- The loop handling of `play(id, opts)` when `opts.loop` is provided:
`safeToLoop = opts.loop && duration > 0.1`; warn when a requested loop is
refused; `howl.loop(safeToLoop)`.  Returns (loop flag set, warned). -/
def playLoopFlag (requested : Bool) (duration : ℚ) : Bool × Bool :=
  let safeToLoop := requested && decide (duration > MIN_SAFE_LOOP)
  (safeToLoop, requested && !safeToLoop)

/-- The `_currentMusicId` / `_currentMusicSoundId` pair of the manager. -/
structure MusicState where
  currentMusicId : Option String
  currentMusicSoundId : Option Nat
deriving DecidableEq, Repr

/-- What one `music.crossfadeTo(id, o)` call did: the updated current-music
state, the loop flag applied to the target howl (none when the sound is not
loaded), and which warnings were logged. -/
structure CrossfadeResult where
  state : MusicState
  loopApplied : Option Bool
  warnedShort : Bool
  warnedMissing : Bool
deriving DecidableEq, Repr

/-- `music.crossfadeTo`: an unloaded id warns and returns; a crossfade to the
currently playing track applies the requested loop flag directly (no duration
check) and returns; otherwise the previous track fades out, and the new track
is started with `safeToLoop = loop && duration > 0.1` (warning when a
requested loop is refused).  `sounds` maps loaded ids to their durations,
`loopOpt` is `o.loop` (default `true`), `newSoundId` the id `howl.play()`
returns. -/
def crossfadeTo (ms : MusicState) (sounds : List (String × ℚ)) (id : String)
    (loopOpt : Option Bool) (newSoundId : Nat) : CrossfadeResult :=
  let loop := loopOpt.getD true
  match sounds.lookup id with
  | none =>
    { state := ms, loopApplied := none, warnedShort := false, warnedMissing := true }
  | some dur =>
    if ms.currentMusicId = some id ∧ ms.currentMusicSoundId ≠ none then
      { state := ms, loopApplied := some loop
        warnedShort := false, warnedMissing := false }
    else
      let safeToLoop := loop && decide (dur > MIN_SAFE_LOOP)
      { state := { currentMusicId := some id, currentMusicSoundId := some newSoundId }
        loopApplied := some safeToLoop
        warnedShort := loop && !decide (dur > MIN_SAFE_LOOP)
        warnedMissing := false }

end Audio

/-! ## Lemmas and theorems -/

namespace Bridge

theorem run_append (es : List Event) (e : Event) :
    run (es ++ [e]) = step (run es) e := by
  simp [run, List.foldl_append]

theorem applyResult_of_not_pending (s : BridgeState) (src : String) (id : Nat)
    (p : ResultPayload) (h : id ∉ s.pending) :
    applyResult s src (some id) p = s := by
  unfold applyResult
  split_ifs with h1 h2
  · rfl
  · simp only [h, if_false]
  · rfl

theorem applyTimeout_of_not_pending (s : BridgeState) (id : Nat)
    (h : id ∉ s.pending) : applyTimeout s id = s := by
  unfold applyTimeout
  simp only [h, if_false]

theorem resolvedIds_resolvePending (s : BridgeState) (id : Nat) (r : SubmitResult) :
    resolvedIds (resolvePending s id r) = resolvedIds s ++ [id] := by
  simp [resolvedIds, resolvePending]

theorem resolvedIds_applyDestroy (s : BridgeState) :
    resolvedIds (applyDestroy s) = resolvedIds s ++ s.pending := by
  unfold resolvedIds applyDestroy
  rw [List.map_append, List.map_map]
  have : (Prod.fst ∘ fun id : Nat => (id, destroyedResult)) = id := by
    funext x
    rfl
  rw [this, List.map_id]

theorem inv_init : Inv initState := by
  refine ⟨List.nodup_nil, List.nodup_nil, ?_, ?_⟩
  · intro i hi
    simp [initState] at hi
  · intro i
    simp [initState, resolvedIds]
    omega

theorem inv_resolvePending {s : BridgeState} {id : Nat} {r : SubmitResult}
    (hInv : Inv s) (hmem : id ∈ s.pending) : Inv (resolvePending s id r) := by
  have hrids : resolvedIds (resolvePending s id r) = resolvedIds s ++ [id] :=
    resolvedIds_resolvePending s id r
  refine ⟨hInv.pending_nodup.erase id, ?_, ?_, ?_⟩
  · rw [hrids]
    exact hInv.resolved_nodup.append (List.nodup_singleton id)
      (by
        intro a ha hb
        simp at hb
        subst hb
        exact hInv.disj _ hmem ha)
  · intro i hi
    rw [hrids]
    have hi' := (hInv.pending_nodup.mem_erase_iff).mp hi
    intro hcon
    rcases List.mem_append.mp hcon with h | h
    · exact hInv.disj i (List.mem_of_mem_erase hi) h
    · simp at h
      exact hi'.1 h
  · intro i
    rw [hrids]
    have base := hInv.assigned i
    constructor
    · intro hor
      apply base.mp
      rcases hor with h | h
      · exact Or.inl (List.mem_of_mem_erase h)
      · rcases List.mem_append.mp h with h | h
        · exact Or.inr h
        · simp at h
          subst h
          exact Or.inl hmem
    · intro hb
      rcases base.mpr hb with h | h
      · by_cases hid : i = id
        · subst hid
          exact Or.inr (List.mem_append.mpr (Or.inr (List.mem_singleton.mpr rfl)))
        · exact Or.inl ((hInv.pending_nodup.mem_erase_iff).mpr ⟨hid, h⟩)
      · exact Or.inr (List.mem_append.mpr (Or.inl h))

theorem inv_step {s : BridgeState} (hInv : Inv s) (e : Event) :
    Inv (step s e) := by
  cases e with
  | submit sc =>
    refine ⟨?_, hInv.resolved_nodup, ?_, ?_⟩
    · refine List.nodup_cons.mpr ⟨?_, hInv.pending_nodup⟩
      intro hmem
      have := (hInv.assigned (s.submitId + 1)).mp (Or.inl hmem)
      omega
    · intro i hi
      simp only [step, applySubmit, List.mem_cons] at hi
      rcases hi with h | h
      · subst h
        intro hres
        have := (hInv.assigned (s.submitId + 1)).mp (Or.inr hres)
        omega
      · exact hInv.disj i h
    · intro i
      simp only [step, applySubmit, List.mem_cons]
      have base := hInv.assigned i
      constructor
      · rintro (⟨h | h⟩ | h)
        · omega
        · have := base.mp (Or.inl h)
          omega
        · have := base.mp (Or.inr h)
          omega
      · intro hb
        by_cases hi : i = s.submitId + 1
        · exact Or.inl (Or.inl hi)
        · rcases base.mpr (by omega) with h | h
          · exact Or.inl (Or.inr h)
          · exact Or.inr h
  | recvContext src g =>
    have hfields :
        (applyContext s src g).pending = s.pending ∧
        (applyContext s src g).resolved = s.resolved ∧
        (applyContext s src g).submitId = s.submitId := by
      unfold applyContext
      split_ifs with h1 h2
      · exact ⟨rfl, rfl, rfl⟩
      · cases g with
        | none => exact ⟨rfl, rfl, rfl⟩
        | some gid =>
          dsimp only
          split_ifs with hg <;> exact ⟨rfl, rfl, rfl⟩
      · exact ⟨rfl, rfl, rfl⟩
    refine ⟨?_, ?_, ?_, ?_⟩ <;>
      simp only [step, hfields.1, hfields.2.1, resolvedIds, hfields.2.2]
    · exact hInv.pending_nodup
    · exact hInv.resolved_nodup
    · exact hInv.disj
    · exact hInv.assigned
  | recvSubmitResult src oid p =>
    show Inv (applyResult s src oid p)
    unfold applyResult
    split_ifs with h1 h2
    · exact hInv
    · cases oid with
      | none => exact hInv
      | some id =>
        by_cases hmem : id ∈ s.pending
        · simp only [hmem, if_true]
          exact inv_resolvePending hInv hmem
        · simp only [hmem, if_false]
          exact hInv
    · exact hInv
  | timeout id =>
    show Inv (applyTimeout s id)
    unfold applyTimeout
    by_cases hmem : id ∈ s.pending
    · simp only [hmem, if_true]
      exact inv_resolvePending hInv hmem
    · simp only [hmem, if_false]
      exact hInv
  | destroy =>
    show Inv (applyDestroy s)
    have hrids := resolvedIds_applyDestroy s
    refine ⟨List.nodup_nil, ?_, ?_, ?_⟩
    · rw [hrids]
      refine hInv.resolved_nodup.append hInv.pending_nodup ?_
      intro a ha hb
      exact hInv.disj a hb ha
    · intro i hi
      simp [applyDestroy] at hi
    · intro i
      rw [hrids]
      have hpend : (applyDestroy s).pending = [] := rfl
      have hsub : (applyDestroy s).submitId = s.submitId := rfl
      rw [hpend, hsub]
      simp only [List.not_mem_nil, false_or, List.mem_append]
      have base := hInv.assigned i
      constructor
      · rintro (h | h)
        · exact base.mp (Or.inr h)
        · exact base.mp (Or.inl h)
      · intro hb
        rcases base.mpr hb with h | h
        · exact Or.inr h
        · exact Or.inl h

theorem inv_run (es : List Event) : Inv (run es) := by
  suffices h : ∀ s, Inv s → Inv (es.foldl step s) from h initState inv_init
  induction es with
  | nil => intro s hs; exact hs
  | cons e t ih =>
    intro s hs
    exact ih (step s e) (inv_step hs e)

theorem applyResult_cases (s : BridgeState) (src : String) (id : Nat)
    (p : ResultPayload) :
    applyResult s src (some id) p = s ∨
    (id ∈ s.pending ∧ applyResult s src (some id) p = resolvePending s id p.toResult) := by
  unfold applyResult
  split_ifs with h1 h2
  · exact Or.inl rfl
  · dsimp only
    by_cases hmem : id ∈ s.pending
    · rw [if_pos hmem]
      exact Or.inr ⟨hmem, rfl⟩
    · rw [if_neg hmem]
      exact Or.inl rfl
  · exact Or.inl rfl

/-- Every step either leaves `ready`/`gameId` untouched, or is an effective
parent `context` message, which sets `ready := true` and some `gameId`. -/
theorem step_flags (s : BridgeState) (e : Event) :
    ((step s e).ready = s.ready ∧ (step s e).gameId = s.gameId) ∨
    ((step s e).ready = true ∧ (∃ g, (step s e).gameId = some g) ∧
      isContextEvent e = true) := by
  cases e with
  | submit sc => exact Or.inl ⟨rfl, rfl⟩
  | destroy => exact Or.inl ⟨rfl, rfl⟩
  | timeout id =>
    show _ ∨ (_ ∧ _ ∧ isContextEvent (Event.timeout id) = true)
    left
    show (applyTimeout s id).ready = s.ready ∧ (applyTimeout s id).gameId = s.gameId
    unfold applyTimeout
    split_ifs <;> exact ⟨rfl, rfl⟩
  | recvSubmitResult src oid p =>
    left
    show (applyResult s src oid p).ready = s.ready ∧
      (applyResult s src oid p).gameId = s.gameId
    unfold applyResult
    split_ifs with h1 h2
    · exact ⟨rfl, rfl⟩
    · cases oid with
      | none => exact ⟨rfl, rfl⟩
      | some id =>
        dsimp only
        split_ifs <;> exact ⟨rfl, rfl⟩
    · exact ⟨rfl, rfl⟩
  | recvContext src g =>
    have key : ((applyContext s src g).ready = s.ready ∧
          (applyContext s src g).gameId = s.gameId) ∨
        ((applyContext s src g).ready = true ∧
          (∃ gg, (applyContext s src g).gameId = some gg) ∧
          isContextEvent (Event.recvContext src g) = true) := by
      unfold applyContext
      split_ifs with h1 h2
      · exact Or.inl ⟨rfl, rfl⟩
      · cases g with
        | none => exact Or.inl ⟨rfl, rfl⟩
        | some gid =>
          dsimp only
          split_ifs with hg
          · right
            refine ⟨rfl, ⟨gid, rfl⟩, ?_⟩
            simp [isContextEvent, h2, hg]
          · exact Or.inl ⟨rfl, rfl⟩
      · exact Or.inl ⟨rfl, rfl⟩
    exact key

/-- `ready` can only have been set by an effective context message. -/
theorem ready_imp_context (es : List Event) :
    (run es).ready = true → ∃ e ∈ es, isContextEvent e = true := by
  suffices h : ∀ s, (es.foldl step s).ready = true →
      s.ready = true ∨ ∃ e ∈ es, isContextEvent e = true by
    intro hr
    rcases h initState hr with h0 | h0
    · simp [initState] at h0
    · exact h0
  induction es with
  | nil =>
    intro s hs
    exact Or.inl hs
  | cons e t ih =>
    intro s hs
    rcases ih (step s e) hs with h1 | h1
    · rcases step_flags s e with ⟨hr, _⟩ | ⟨_, _, hctx⟩
      · left
        rw [← hr]
        exact h1
      · exact Or.inr ⟨e, List.mem_cons_self e t, hctx⟩
    · rcases h1 with ⟨e', he', hc⟩
      exact Or.inr ⟨e', List.mem_cons_of_mem e he', hc⟩

/-- **C1**: every pending submission of the Transport Channel resolves at most
once (the resolution log never repeats a correlation id); once an id is no
longer pending, a late `submit_result` for it and a late timeout firing are
both exact no-ops on the bridge state (no re-resolution, no exception); and a
`destroy()` resolves every assigned correlation id exactly once overall —
whichever of response, timeout or destroy fires first removed the entry, so
exactly one of the three resolutions happens per submission. -/
theorem pending_submission_resolves_exactly_once (es : List Event) :
    (resolvedIds (run es)).Nodup ∧
    (∀ src id p, id ∉ (run es).pending →
      step (run es) (Event.recvSubmitResult src (some id) p) = run es ∧
      step (run es) (Event.timeout id) = run es) ∧
    (∀ i, 1 ≤ i → i ≤ (run es).submitId →
      (resolvedIds (run (es ++ [Event.destroy]))).count i = 1) := by
  have hInv := inv_run es
  refine ⟨hInv.resolved_nodup, ?_, ?_⟩
  · intro src id p hid
    exact ⟨applyResult_of_not_pending _ src id p hid,
      applyTimeout_of_not_pending _ id hid⟩
  · intro i h1 h2
    rw [run_append]
    have hmem : i ∈ resolvedIds (applyDestroy (run es)) := by
      rw [resolvedIds_applyDestroy]
      rcases (hInv.assigned i).mpr ⟨h1, h2⟩ with h | h
      · exact List.mem_append.mpr (Or.inr h)
      · exact List.mem_append.mpr (Or.inl h)
    have hnodup : (resolvedIds (applyDestroy (run es))).Nodup :=
      (inv_step hInv Event.destroy).resolved_nodup
    exact List.count_eq_one_of_mem hnodup hmem

/-- Witness for C1: after one `submit` (correlation id 1), a timeout event
for the never-assigned id 5 is a no-op, and after `destroy` id 1 has been
resolved exactly once. -/
theorem pending_submission_resolves_exactly_once_witness :
    step (run [Event.submit 3]) (Event.timeout 5) = run [Event.submit 3] ∧
    (resolvedIds (run ([Event.submit 3] ++ [Event.destroy]))).count 1 = 1 :=
  ⟨((pending_submission_resolves_exactly_once [Event.submit 3]).2.1 "x" 5
      ⟨none, none, none, none⟩ (by decide)).2,
   (pending_submission_resolves_exactly_once [Event.submit 3]).2.2 1
      (by decide) (by decide)⟩

/-- **C2**: a `submit` call allocates correlation id `submitId + 1`, strictly
greater than every previously assigned id (pending or already resolved); and
an inbound `submit_result` message either changes nothing or resolves exactly
the pending entry whose correlation id equals the message's id, appending
that id's result to the log and removing the id from the pending map at the
moment of the match. -/
theorem correlation_id_allocation_and_matching (es : List Event) :
    (∀ sc : Int,
      (step (run es) (Event.submit sc)).submitId = (run es).submitId + 1 ∧
      ∀ i, (i ∈ (run es).pending ∨ i ∈ resolvedIds (run es)) →
        i < (step (run es) (Event.submit sc)).submitId) ∧
    (∀ src id p,
      step (run es) (Event.recvSubmitResult src (some id) p) = run es ∨
      (id ∈ (run es).pending ∧
        (step (run es) (Event.recvSubmitResult src (some id) p)).resolved
          = (run es).resolved ++ [(id, p.toResult)] ∧
        id ∉ (step (run es) (Event.recvSubmitResult src (some id) p)).pending)) := by
  have hInv := inv_run es
  constructor
  · intro sc
    refine ⟨rfl, ?_⟩
    intro i hi
    have := (hInv.assigned i).mp hi
    show i < (run es).submitId + 1
    omega
  · intro src id p
    rcases applyResult_cases (run es) src id p with h | ⟨hmem, heq⟩
    · exact Or.inl h
    · right
      refine ⟨hmem, ?_, ?_⟩
      · show (applyResult (run es) src (some id) p).resolved = _
        rw [heq]
        rfl
      · show id ∉ (applyResult (run es) src (some id) p).pending
        rw [heq]
        exact hInv.pending_nodup.not_mem_erase

/-- Witness for C2: after one submit assigning id 1, a fresh submit receives
an id strictly greater than 1. -/
theorem correlation_id_allocation_and_matching_witness :
    (1 : Nat) < (step (run [Event.submit 9]) (Event.submit 4)).submitId :=
  ((correlation_id_allocation_and_matching [Event.submit 9]).1 4).2 1
    (Or.inl (by decide))

/-- **C6 counterexample**: `handleMessage` re-assigns `gameId` on every parent
`context` message carrying a truthy gameId, so after a context delivering
"a" followed by one delivering "b" the property reads "b", not the first
delivered value "a" — refuting "thereafter remains fixed at the first
delivered value". -/
theorem context_gameId_overwritten_cex :
    (run [Event.recvContext PARENT_SOURCE (some "a"),
          Event.recvContext PARENT_SOURCE (some "b")]).gameId = some "b" ∧
    some "b" ≠ (some "a" : Option String) := by
  exact ⟨by decide, by decide⟩

/-- **C6 (amended)**: `ready` is false at construction and remains false
until the first parent `context` message carrying a gameId; it is true after
such a message; it never reverts to false under any further event.  `gameId`
is null at construction and, once set, never reverts to null; but it holds
the most recently delivered context gameId rather than being fixed at the
first delivered value. -/
theorem ready_monotone_gameId_latest (es : List Event) :
    (initState.ready = false ∧ initState.gameId = none) ∧
    ((run es).ready = true → ∃ e ∈ es, isContextEvent e = true) ∧
    (∀ e, (run es).ready = true → (step (run es) e).ready = true) ∧
    (∀ e g, (run es).gameId = some g → ∃ g', (step (run es) e).gameId = some g') ∧
    (∀ g, g ≠ "" → (run es).destroyed = false →
      (step (run es) (Event.recvContext PARENT_SOURCE (some g))).gameId = some g ∧
      (step (run es) (Event.recvContext PARENT_SOURCE (some g))).ready = true) := by
  refine ⟨⟨rfl, rfl⟩, ready_imp_context es, ?_, ?_, ?_⟩
  · intro e hr
    rcases step_flags (run es) e with ⟨h1, _⟩ | ⟨h1, _, _⟩
    · rw [h1, hr]
    · exact h1
  · intro e g hg
    rcases step_flags (run es) e with ⟨_, h2⟩ | ⟨_, ⟨g', h2⟩, _⟩
    · exact ⟨g, by rw [h2, hg]⟩
    · exact ⟨g', h2⟩
  · intro g hg hdest
    have key : (applyContext (run es) PARENT_SOURCE (some g)).gameId = some g ∧
        (applyContext (run es) PARENT_SOURCE (some g)).ready = true := by
      unfold applyContext
      rw [hdest]
      simp only [Bool.false_eq_true, if_false, if_true]
      rw [if_pos hg]
      exact ⟨rfl, rfl⟩
    exact key

/-- Witness for C6 (amended): ready survives `destroy`, and a first context
message sets the gameId it delivered. -/
theorem ready_monotone_gameId_latest_witness :
    (step (run [Event.recvContext PARENT_SOURCE (some "g")]) Event.destroy).ready = true ∧
    (step (run []) (Event.recvContext PARENT_SOURCE (some "g"))).gameId = some "g" :=
  ⟨(ready_monotone_gameId_latest [Event.recvContext PARENT_SOURCE (some "g")]).2.2.1
      Event.destroy (by decide),
   ((ready_monotone_gameId_latest []).2.2.2.2 "g" (by decide) (by decide)).1⟩

end Bridge

namespace Facade

/-- The handler loop invokes every handler of the list, in order, no matter
which handlers throw (each call is wrapped in its own try/catch). -/
theorem runHandlers_fst (behavior : Nat → SubmitResult → HandlerOutcome)
    (hs : List Nat) (r : SubmitResult) :
    (runHandlers behavior hs r).1 = hs := by
  induction hs with
  | nil => rfl
  | cons h t ih => simp [runHandlers, ih]

theorem mem_setAdd (hs : List Nat) (f : Nat) : f ∈ setAdd hs f := by
  unfold setAdd
  split_ifs with h
  · exact h
  · simp

theorem nodup_setAdd (hs : List Nat) (f : Nat) (hnd : hs.Nodup) :
    (setAdd hs f).Nodup := by
  unfold setAdd
  split_ifs with h
  · exact hnd
  · exact hnd.append (List.nodup_singleton f)
      (by
        intro a ha hb
        simp at hb
        subst hb
        exact h ha)

/-- **C3 counterexample**: with observer 0 subscribed, `submit(NaN)` produces
the validation-failure result but the invoked-observer list is empty (the
invalid-score branch of `impl.ts submit` returns before the handler loop),
and likewise for the missing-gameId failure in standalone mode — so observers
are not invoked for validation failures, refuting the claim. -/
theorem facade_submit_validation_skips_observers_cex :
    facadeSubmit Mode.standalone (some "g") JSNum.nan
      (DelegateOutcome.result okSubmitResult) [0] (fun _ _ => HandlerOutcome.ok)
      = (invalidScoreResult, []) ∧
    facadeSubmit Mode.standalone none (JSNum.fin 3)
      (DelegateOutcome.result okSubmitResult) [0] (fun _ _ => HandlerOutcome.ok)
      = (gameIdRequiredResult, []) :=
  ⟨rfl, rfl⟩

/-- **C3 (amended)**: for every result actually obtained from the transport
delegate, all currently subscribed observers are invoked synchronously in
registration order with that result before the promise resolves, the promise
resolves with the delegate's result unchanged, and observer behaviour
(including throwing) influences neither which observers run nor the result.
Validation failures (non-finite score) return their failure result without
invoking any observer. -/
theorem facade_submit_fanout (mode : Mode) (gid : Option String) (score : JSNum)
    (r : SubmitResult) (handlers : List Nat)
    (behavior behavior' : Nat → SubmitResult → HandlerOutcome)
    (hfin : score.isFinite = true)
    (hgid : mode = Mode.standalone → ∃ g, gid = some g) :
    facadeSubmit mode gid score (DelegateOutcome.result r) handlers behavior
      = (r, handlers) ∧
    facadeSubmit mode gid score (DelegateOutcome.result r) handlers behavior
      = facadeSubmit mode gid score (DelegateOutcome.result r) handlers behavior' ∧
    (∀ sc : JSNum, sc.isFinite = false →
      facadeSubmit mode gid sc (DelegateOutcome.result r) handlers behavior
        = (invalidScoreResult, [])) := by
  have main : ∀ b : Nat → SubmitResult → HandlerOutcome,
      facadeSubmit mode gid score (DelegateOutcome.result r) handlers b
        = (r, handlers) := by
    intro b
    unfold facadeSubmit
    rw [hfin]
    cases mode with
    | platform => simp [runHandlers_fst]
    | standalone =>
      rcases hgid rfl with ⟨g, hg⟩
      subst hg
      simp [runHandlers_fst]
  refine ⟨main behavior, by rw [main behavior, main behavior'], ?_⟩
  intro sc hsc
  unfold facadeSubmit
  rw [hsc]
  rfl

/-- Witness for C3 (amended): a throwing observer (id 0) does not stop
observer 1 from being invoked nor change the resolved result. -/
theorem facade_submit_fanout_witness :
    facadeSubmit Mode.standalone (some "game-1") (JSNum.fin 1500)
      (DelegateOutcome.result okSubmitResult) [0, 1]
      (fun h _ => if h = 0 then HandlerOutcome.threw "boom" else HandlerOutcome.ok)
      = (okSubmitResult, [0, 1]) :=
  (facade_submit_fanout Mode.standalone (some "game-1") (JSNum.fin 1500)
    okSubmitResult [0, 1]
    (fun h _ => if h = 0 then HandlerOutcome.threw "boom" else HandlerOutcome.ok)
    (fun _ _ => HandlerOutcome.ok) rfl (fun _ => ⟨"game-1", rfl⟩)).1

/-- **C10**: `submitHandlers` is a JS `Set` of function references, so a
second `onSubmit(f)` while `f` is subscribed changes nothing; after the
double registration the submit fan-out still invokes `f` exactly once; the
unsubscribe closure (either registration returns the same deletion) removes
`f` entirely; and deleting again is an idempotent no-op. -/
theorem onSubmit_set_semantics (hs : List Nat) (f : Nat) (hnd : hs.Nodup)
    (r : SubmitResult) (behavior : Nat → SubmitResult → HandlerOutcome) :
    setAdd (setAdd hs f) f = setAdd hs f ∧
    (runHandlers behavior (setAdd (setAdd hs f) f) r).1.count f = 1 ∧
    f ∉ setDelete (setAdd (setAdd hs f) f) f ∧
    setDelete (setDelete (setAdd hs f) f) f = setDelete (setAdd hs f) f := by
  have hadd : setAdd (setAdd hs f) f = setAdd hs f := by
    show (if f ∈ setAdd hs f then setAdd hs f else setAdd hs f ++ [f]) = setAdd hs f
    rw [if_pos (mem_setAdd hs f)]
  have hnd' : (setAdd hs f).Nodup := nodup_setAdd hs f hnd
  have hnotmem : f ∉ setDelete (setAdd hs f) f := hnd'.not_mem_erase
  refine ⟨hadd, ?_, ?_, ?_⟩
  · rw [hadd, runHandlers_fst]
    exact List.count_eq_one_of_mem hnd' (mem_setAdd hs f)
  · rw [hadd]
    exact hnotmem
  · exact List.erase_of_not_mem hnotmem

/-- Witness for C10 on the concrete handler set `[5]` and handler 7. -/
theorem onSubmit_set_semantics_witness :
    setAdd (setAdd [5] 7) 7 = setAdd [5] 7 ∧
    (runHandlers (fun _ _ => HandlerOutcome.ok) (setAdd (setAdd [5] 7) 7)
        okSubmitResult).1.count 7 = 1 ∧
    7 ∉ setDelete (setAdd (setAdd [5] 7) 7) 7 ∧
    setDelete (setDelete (setAdd [5] 7) 7) 7 = setDelete (setAdd [5] 7) 7 :=
  onSubmit_set_semantics [5] 7 (by decide) okSubmitResult
    (fun _ _ => HandlerOutcome.ok)

end Facade

namespace Api

/-- Rank positivity of the mapped scores list, generalized over the
enumeration offset. -/
theorem rank_pos_enumFrom (l : List RawEntry) (n : Nat)
    (hpos : ∀ s ∈ l, 1 ≤ s.rank.getD 1) :
    ∀ e ∈ (l.enumFrom n).map (fun p => mapEntry p.1 p.2), 1 ≤ e.rank := by
  induction l generalizing n with
  | nil =>
    intro e he
    simp [List.enumFrom] at he
  | cons s t ih =>
    intro e he
    simp only [List.enumFrom, List.map_cons, List.mem_cons] at he
    rcases he with h | h
    · subst h
      show 1 ≤ s.rank.getD (n + 1)
      cases hs : s.rank with
      | none => simp
      | some k =>
        have := hpos s (List.mem_cons_self s t)
        simpa [hs] using this
    · exact ih (n + 1) (fun s' hs' => hpos s' (List.mem_cons_of_mem s hs')) e h

/-- **C4**: on any network failure, non-2xx response or body-parse failure,
the Direct API Client's `getScores` returns exactly the empty well-formed
snapshot — scores `[]`, the requested timeframe (or `weekly` when none was
requested), `you = null` — as a total function (never throwing, never
returning a partial value); and the Leaderboard Facade's `getScores` returns
the same empty snapshot when no gameId is resolvable. -/
theorem getScores_failure_empty_snapshot (outcome : FetchOutcome)
    (tf : Option Timeframe) (h : ∀ raw, outcome ≠ FetchOutcome.ok raw) :
    getScores outcome tf = emptyData tf ∧
    facadeGetScores none tf outcome = emptyData tf ∧
    (emptyData tf).scores = [] ∧
    (emptyData tf).you = none ∧
    (emptyData tf).timeframe = tf.getD Timeframe.weekly := by
  refine ⟨?_, rfl, rfl, rfl, rfl⟩
  cases outcome with
  | ok raw => exact absurd rfl (h raw)
  | networkError m => rfl
  | httpError st e => rfl
  | badBody => rfl

/-- Witness for C4 at a concrete network failure with a requested
timeframe. -/
theorem getScores_failure_empty_snapshot_witness :
    getScores (FetchOutcome.networkError "offline") (some Timeframe.all_time)
      = emptyData (some Timeframe.all_time) :=
  (getScores_failure_empty_snapshot (FetchOutcome.networkError "offline")
    (some Timeframe.all_time) (fun _ h => nomatch h)).1

/-- **C5 counterexample**: when the server omits the rank of the `you` entry,
the parsed snapshot's `you` gets rank 0 (`result.you.rank ?? 0`), which is
not a positive integer — so not every ScoreEntry the snapshot contains has
rank ≥ 1. -/
theorem you_rank_defaults_to_zero_cex :
    ((getScores (FetchOutcome.ok rawYouNoRank) none).you.map ScoreEntry.rank)
      = some 0 ∧ ¬ (1 ≤ (0 : Nat)) :=
  ⟨rfl, by decide⟩

/-- **C5 (amended)**: in a successfully parsed snapshot every scores-list
entry whose raw row omitted `rank` is assigned its 1-based list position
(the parsed rank list equals the enumerated defaults, never undefined);
whenever every server-provided rank is ≥ 1, every entry of `scores` has
rank ≥ 1; but a `you` entry with an omitted rank is assigned rank 0 rather
than a positive value. -/
theorem scores_rank_defaulting (raw : RawSnapshot) (tf : Option Timeframe) :
    (getScores (FetchOutcome.ok raw) tf).scores.map ScoreEntry.rank
      = raw.scores.enum.map (fun p => p.2.rank.getD (p.1 + 1)) ∧
    ((∀ s ∈ raw.scores, 1 ≤ s.rank.getD 1) →
      ∀ e ∈ (getScores (FetchOutcome.ok raw) tf).scores, 1 ≤ e.rank) ∧
    (∀ y, raw.you = some y → y.rank = none →
      (getScores (FetchOutcome.ok raw) tf).you.map ScoreEntry.rank = some 0) := by
  refine ⟨?_, ?_, ?_⟩
  · show (raw.scores.enum.map (fun p => mapEntry p.1 p.2)).map ScoreEntry.rank = _
    rw [List.map_map]
    rfl
  · intro hpos e he
    exact rank_pos_enumFrom raw.scores 0 hpos e he
  · intro y hy hrank
    show (raw.you.map mapYou).map ScoreEntry.rank = some 0
    rw [hy]
    simp [mapYou, hrank]

/-- Witness for C5 (amended): on the three-row body the first parsed entry
has a positive rank, and the rank-omitted `you` comes out as 0. -/
theorem scores_rank_defaulting_witness :
    1 ≤ (mapEntry 0 ({ id := "a", playerName := some "A", score := 30
                       submittedAt := "t1", rank := none } : RawEntry)).rank ∧
    (getScores (FetchOutcome.ok rawYouNoRank) none).you.map ScoreEntry.rank
      = some 0 :=
  ⟨(scores_rank_defaulting rawThree none).2.1 (by decide) _ (by decide),
   (scores_rank_defaulting rawYouNoRank none).2.2
     ({ id := "y", playerName := some "p", score := 5, submittedAt := "t"
        rank := none } : RawEntry) rfl rfl⟩

end Api

namespace Synth

/-- **C7**: generating twice from an identical Synth Definition input yields
the same cache key — a deterministic serialization of the resolved
definition, prefixed with the preset name when the input is a preset — and
the second `_loadProceduralSound` call finds the key in `_generatedWavUrls`
and reuses the cached asset: its result (state and URL) is exactly the first
call's, with no second render (in particular the render counter does not
advance). -/
theorem synth_cache_key_reuse (st : ProcCache) (v : SynthInput) :
    loadProceduralSound (loadProceduralSound st v).1 v = loadProceduralSound st v ∧
    (∀ p, defKey (SynthInput.preset p)
      = SynthPreset.name p ++ ":" ++ serializeDef (resolveDefinition (SynthInput.preset p))) ∧
    (∀ d, defKey (SynthInput.custom d) = serializeDef d) := by
  refine ⟨?_, fun p => rfl, fun d => rfl⟩
  cases hl : st.urls.lookup (defKey v) with
  | some url =>
    have h1 : loadProceduralSound st v = (st, url) := by
      unfold loadProceduralSound
      rw [hl]
    rw [h1]
    exact h1
  | none =>
    have h1 : loadProceduralSound st v
        = ({ urls := (defKey v, freshUrl st.renderCount) :: st.urls
             renderCount := st.renderCount + 1 }, freshUrl st.renderCount) := by
      unfold loadProceduralSound
      rw [hl]
    rw [h1]
    unfold loadProceduralSound
    simp [List.lookup]

end Synth

namespace Audio

theorem lookup_assocDelete {α : Type} (l : List (String × α)) (k : String) :
    (assocDelete l k).lookup k = none := by
  induction l with
  | nil => rfl
  | cons p t ih =>
    rcases p with ⟨k', v'⟩
    show (List.filter (fun q => q.1 != k) ((k', v') :: t)).lookup k = none
    rw [List.filter_cons]
    by_cases h : k' = k
    · subst h
      simp only [bne_self_eq_false, Bool.false_eq_true, if_false]
      exact ih
    · have hb : ((k', v').1 != k) = true := by
        simp [bne, h]
      rw [if_pos hb]
      have hk : (k == k') = false := by
        simp [Ne.symm h]
      show List.lookup k ((k', v') :: List.filter (fun q => q.1 != k) t) = none
      rw [List.lookup_cons]
      rw [hk]
      exact ih

/-- On a failed Howl load (`onloaderror`): the sound is never inserted, the
group entry set for the attempt is deleted again, an `error` event is
dispatched and the promise resolves (the embedding is total — no throw). -/
theorem howlLoad_failure (st : Registry) (id : String) (g : Option Group) :
    (howlLoad st id g false).sounds = st.sounds ∧
    (howlLoad st id g false).soundGroups.lookup id = none ∧
    (howlLoad st id g false).errorEvents = st.errorEvents + 1 := by
  refine ⟨rfl, ?_, rfl⟩
  exact lookup_assocDelete _ _

/-- **C8 counterexample**: preloading an object manifest entry records its
per-ID volume override before loading, and a failed load does not remove
it — the failed id leaves a `_soundVolumes` trace (while `_sounds` stays
empty), refuting "the failed attempt leaves no trace of that id in the
manager's per-sound state". -/
theorem preload_failure_volume_trace_cex :
    (preloadEntry emptyRegistry "boom"
        (ManifestValue.obj none (some ["x.mp3"]) (some (1/2)) none) false).soundVolumes
      = [("boom", 1/2)] ∧
    (preloadEntry emptyRegistry "boom"
        (ManifestValue.obj none (some ["x.mp3"]) (some (1/2)) none) false).sounds
      = [] :=
  ⟨rfl, rfl⟩

/-- **C8 (amended)**: a failed load/preload/procedural generation never
inserts the id into the sound registry (`_sounds` is unchanged by every
failing manifest entry), and leaves no `_soundGroups` entry for the id
(given none existed before); a failing Howl load emits exactly one `error`
event and never throws (the embedding is a total function).  A per-ID volume
override recorded while preloading an object entry, however, does persist
after the failure. -/
theorem failed_load_leaves_no_registry_entry (st : Registry) (id : String)
    (v : ManifestValue) (g : Option Group)
    (hg : st.soundGroups.lookup id = none) :
    (preloadEntry st id v false).sounds = st.sounds ∧
    (preloadEntry st id v false).soundGroups.lookup id = none ∧
    (howlLoad st id g false).errorEvents = st.errorEvents + 1 := by
  refine ⟨?_, ?_, (howlLoad_failure st id g).2.2⟩
  · cases v with
    | presetVal p => exact (howlLoad_failure st id none).1
    | synthVal d => exact (howlLoad_failure st id none).1
    | fileSrc srcs =>
      show (preloadEntry st id (ManifestValue.fileSrc srcs) false).sounds = st.sounds
      unfold preloadEntry
      dsimp only
      cases srcs with
      | nil => exact (howlLoad_failure st id none).1
      | cons s rest =>
        dsimp only [List.head?]
        split_ifs with hc
        · rfl
        · exact (howlLoad_failure st id none).1
    | obj synth src volume group =>
      show (preloadEntry st id (ManifestValue.obj synth src volume group) false).sounds
        = st.sounds
      unfold preloadEntry
      cases volume with
      | none =>
        dsimp only
        cases synth with
        | some sv => exact (howlLoad_failure st id group).1
        | none =>
          cases src with
          | none => rfl
          | some srcs => exact (howlLoad_failure st id group).1
      | some vol =>
        dsimp only
        cases synth with
        | some sv => exact (howlLoad_failure _ id group).1
        | none =>
          cases src with
          | none => rfl
          | some srcs => exact (howlLoad_failure _ id group).1
  · cases v with
    | presetVal p => exact (howlLoad_failure st id none).2.1
    | synthVal d => exact (howlLoad_failure st id none).2.1
    | fileSrc srcs =>
      show (preloadEntry st id (ManifestValue.fileSrc srcs) false).soundGroups.lookup id
        = none
      unfold preloadEntry
      dsimp only
      cases srcs with
      | nil => exact (howlLoad_failure st id none).2.1
      | cons s rest =>
        dsimp only [List.head?]
        split_ifs with hc
        · exact hg
        · exact (howlLoad_failure st id none).2.1
    | obj synth src volume group =>
      show (preloadEntry st id (ManifestValue.obj synth src volume group) false).soundGroups.lookup id
        = none
      unfold preloadEntry
      cases volume with
      | none =>
        dsimp only
        cases synth with
        | some sv => exact (howlLoad_failure st id group).2.1
        | none =>
          cases src with
          | none => exact hg
          | some srcs => exact (howlLoad_failure st id group).2.1
      | some vol =>
        dsimp only
        cases synth with
        | some sv => exact (howlLoad_failure _ id group).2.1
        | none =>
          cases src with
          | none => exact hg
          | some srcs => exact (howlLoad_failure _ id group).2.1

/-- Witness for C8 (amended) on an empty registry and a failing file load. -/
theorem failed_load_leaves_no_registry_entry_witness :
    (preloadEntry emptyRegistry "zap" (ManifestValue.fileSrc ["zap.mp3"]) false).sounds
      = emptyRegistry.sounds ∧
    (preloadEntry emptyRegistry "zap"
        (ManifestValue.fileSrc ["zap.mp3"]) false).soundGroups.lookup "zap" = none :=
  ⟨(failed_load_leaves_no_registry_entry emptyRegistry "zap"
      (ManifestValue.fileSrc ["zap.mp3"]) none rfl).1,
   (failed_load_leaves_no_registry_entry emptyRegistry "zap"
      (ManifestValue.fileSrc ["zap.mp3"]) none rfl).2.1⟩

/-- **C9 counterexample**: `crossfadeTo` to the track that is already the
current music applies the caller's loop flag directly — no duration check,
no warning — so a 0.05 s track (below the 0.1 s minimum) does get set to
loop via a music crossfade, refuting "the sound is never actually set to
loop".  The first conjunct shows the state is reachable: it is exactly what
a first crossfade to that track produces (that first call correctly refused
the loop). -/
theorem crossfade_same_track_loops_short_cex :
    (crossfadeTo { currentMusicId := none, currentMusicSoundId := none }
        [("music.intro", 1/20)] "music.intro" (some true) 1).state
      = { currentMusicId := some "music.intro", currentMusicSoundId := some 1 } ∧
    (crossfadeTo { currentMusicId := none, currentMusicSoundId := none }
        [("music.intro", 1/20)] "music.intro" (some true) 1).loopApplied
      = some false ∧
    (crossfadeTo
        { currentMusicId := some "music.intro", currentMusicSoundId := some 1 }
        [("music.intro", 1/20)] "music.intro" (some true) 2).loopApplied
      = some true ∧
    (crossfadeTo
        { currentMusicId := some "music.intro", currentMusicSoundId := some 1 }
        [("music.intro", 1/20)] "music.intro" (some true) 2).warnedShort
      = false := by
  have hgt : ¬ ((1 : ℚ)/20 > MIN_SAFE_LOOP) := by norm_num [MIN_SAFE_LOOP]
  have hdec : decide ((1 : ℚ)/20 > MIN_SAFE_LOOP) = false := decide_eq_false hgt
  refine ⟨?_, ?_, ?_, ?_⟩ <;> simp [crossfadeTo, List.lookup, hdec] <;>
    norm_num [MIN_SAFE_LOOP]

/-- **C9 (amended)**: a loop request for a loaded sound whose duration is at
most the 0.1 s safety threshold is refused with a warning, both through
`play` options and through a crossfade to a track other than the current one
(and a non-loop request is never warned about); only a crossfade to the
track already playing applies the requested loop flag without the duration
check. -/
theorem short_sound_loop_refused (requested : Bool) (d : ℚ) (ms : MusicState)
    (sounds : List (String × ℚ)) (id : String) (sid : Nat)
    (hd : d ≤ MIN_SAFE_LOOP) (hdur : sounds.lookup id = some d) :
    playLoopFlag requested d = (false, requested) ∧
    (¬ (ms.currentMusicId = some id ∧ ms.currentMusicSoundId ≠ none) →
      (crossfadeTo ms sounds id (some requested) sid).loopApplied = some false ∧
      (crossfadeTo ms sounds id (some requested) sid).warnedShort = requested) ∧
    ((ms.currentMusicId = some id ∧ ms.currentMusicSoundId ≠ none) →
      (crossfadeTo ms sounds id (some requested) sid).loopApplied = some requested ∧
      (crossfadeTo ms sounds id (some requested) sid).warnedShort = false) := by
  have hlt : ¬ (d > MIN_SAFE_LOOP) := not_lt.mpr hd
  have hdec : decide (d > MIN_SAFE_LOOP) = false := decide_eq_false hlt
  refine ⟨?_, ?_, ?_⟩
  · unfold playLoopFlag
    rw [hdec]
    cases requested <;> rfl
  · intro hnot
    unfold crossfadeTo
    rw [hdur]
    dsimp only
    rw [if_neg hnot, hdec]
    cases requested <;> exact ⟨rfl, rfl⟩
  · intro hsame
    unfold crossfadeTo
    rw [hdur]
    dsimp only
    rw [if_pos hsame]
    exact ⟨rfl, rfl⟩

/-- Witness for C9 (amended): a 0.05 s sound with loop requested is not
looped by `play`, and a crossfade from silence refuses it too. -/
theorem short_sound_loop_refused_witness :
    playLoopFlag true (1/20) = (false, true) ∧
    (crossfadeTo { currentMusicId := none, currentMusicSoundId := none }
        [("m", 1/20)] "m" (some true) 1).loopApplied = some false :=
  ⟨(short_sound_loop_refused true (1/20)
      { currentMusicId := none, currentMusicSoundId := none }
      [("m", 1/20)] "m" 1 (by norm_num [MIN_SAFE_LOOP]) (by simp [List.lookup])).1,
   ((short_sound_loop_refused true (1/20)
      { currentMusicId := none, currentMusicSoundId := none }
      [("m", 1/20)] "m" 1 (by norm_num [MIN_SAFE_LOOP])
      (by simp [List.lookup])).2.1 (by simp)).1⟩

end Audio

end StarSDK
